import Mathlib

set_option autoImplicit false

/-!
Shallow embedding of the InstantMeet signaling server (Go).

The repository carries two variants of the same server:
* `src/unnamed/part_000` — rooms hold a set of `*Client` pointers
  (`map[*Client]bool`), deliveries go through a per-client `Send` queue,
  and `handleJoin` drops a `join` whose `roomId` is empty.  Embedded in
  namespace `P0`.
* `src/main.go` — rooms hold an id-keyed map (`map[string]*Client`),
  messages are written directly, and `handleJoin` has no `roomId` check.
  Embedded in namespace `MG`.

Go pointers are modelled as `Nat` (`ClientPtr`); the mutable per-session
fields live in a heap `clientOf : ClientPtr → ClientData`.  Go maps are
modelled as association lists with the usual replace-on-insert semantics.
Every handler is a pure function `State → State × List Delivery`, where
the delivery list records, in order, each (recipient, envelope) pair the
operation enqueues/writes.
-/

/-- Wire envelope (`struct Message` in both Go files).  A JSON field that
is absent decodes to Go's zero value, the empty string; `data` is the
opaque `json.RawMessage` payload, modelled as an uninterpreted string. -/
structure Message where
  type_ : String
  from_ : String
  to_ : String
  roomId : String
  username : String
  data : String
deriving DecidableEq, Repr

/-- A Go `*Client` pointer: only its identity matters. -/
abbrev ClientPtr := Nat

/-- The router-visible mutable fields of a `Client` session
(`ID`, `RoomID`, `Username`; `Conn`/`Send` are modelled by the delivery
log returned from each operation). -/
structure ClientData where
  id : String
  roomId : String
  username : String
deriving DecidableEq, Repr

/-- One enqueued/written outbound envelope: recipient and message. -/
abbrev Delivery := ClientPtr × Message

/-- Lookup in a Go-map modelled as an association list. -/
def lookupA {α : Type} (k : String) : List (String × α) → Option α
  | [] => none
  | (k', v) :: rest => if k' = k then some v else lookupA k rest

/-- Go-map assignment `m[k] = v`: replace the binding if the key is
present, otherwise append it. -/
def insertA {α : Type} (k : String) (v : α) : List (String × α) → List (String × α)
  | [] => [(k, v)]
  | (k', v') :: rest => if k' = k then (k, v) :: rest else (k', v') :: insertA k v rest

/-- Go-map `delete(m, k)`. -/
def eraseA {α : Type} (k : String) : List (String × α) → List (String × α)
  | [] => []
  | (k', v) :: rest => if k' = k then eraseA k rest else (k', v) :: eraseA k rest

namespace P0

/-- `struct Room` of `src/unnamed/part_000`: `Clients map[*Client]bool`
modelled as a duplicate-free list of pointers. -/
structure Room where
  id : String
  clients : List ClientPtr
deriving DecidableEq, Repr

/-- Server state: the global `rooms` registry and the client heap. -/
structure State where
  rooms : List (String × Room)
  clientOf : ClientPtr → ClientData

/-- Write through a `*Client` pointer. -/
def setClient (st : State) (c : ClientPtr) (f : ClientData → ClientData) : State :=
  { st with clientOf := fun p => if p = c then f (st.clientOf p) else st.clientOf p }

/-- `room.Clients[client] = true` on a set-valued map. -/
def insertPtr (l : List ClientPtr) (c : ClientPtr) : List ClientPtr :=
  if c ∈ l then l else l ++ [c]

/-- The lookup-or-create block inlined in `handleJoin`
(`rooms[msg.RoomID]`, creating and registering an empty room on miss). -/
def getOrCreate (rooms : List (String × Room)) (rid : String) :
    Room × List (String × Room) :=
  match lookupA rid rooms with
  | some r => (r, rooms)
  | none => (⟨rid, []⟩, insertA rid ⟨rid, []⟩ rooms)

/-- The `user-joined` notification built in `handleJoin`: `From` is the
just-assigned `client.ID = msg.From`, `Username` the just-assigned
`client.Username = msg.Username`, `RoomID` is `msg.RoomID`. -/
def userJoinedMsg (msg : Message) : Message :=
  ⟨"user-joined", msg.from_, "", msg.roomId, msg.username, ""⟩

/-- The `joined` confirmation: only `Type` and `RoomID` are set. -/
def joinedMsg (msg : Message) : Message :=
  ⟨"joined", "", "", msg.roomId, "", ""⟩

/-- `handleJoin` of `src/unnamed/part_000`: set `client.ID` and
`client.Username` from the envelope, drop if `msg.RoomID` is empty,
otherwise set `client.RoomID`, get-or-create the room, add the client,
notify every *other* member (`otherClient != client`, pointer
comparison), then send `joined` back to the client. -/
def handleJoin (st : State) (c : ClientPtr) (msg : Message) : State × List Delivery :=
  let st1 := setClient st c (fun d => { d with id := msg.from_, username := msg.username })
  if msg.roomId = "" then (st1, [])
  else
    let st2 := setClient st1 c (fun d => { d with roomId := msg.roomId })
    let rr := getOrCreate st2.rooms msg.roomId
    let clients1 := insertPtr rr.1.clients c
    let st3 := { st2 with rooms := insertA msg.roomId { rr.1 with clients := clients1 } rr.2 }
    let notifs := (clients1.filter (fun o => o ≠ c)).map (fun o => (o, userJoinedMsg msg))
    (st3, notifs ++ [(c, joinedMsg msg)])

/-- The linear scan of `handleSignaling`: first member of the room whose
current `ID` equals the wanted id. -/
def findById (st : State) (i : String) : List ClientPtr → Option ClientPtr
  | [] => none
  | p :: rest => if (st.clientOf p).id = i then some p else findById st i rest

/-- `handleSignaling` of `src/unnamed/part_000`: drop on empty `To`,
missing room, or unknown recipient; otherwise overwrite `From` with the
sender's `client.ID` and enqueue the envelope to the target.  The server
state is never mutated. -/
def handleSignaling (st : State) (c : ClientPtr) (msg : Message) : State × List Delivery :=
  if msg.to_ = "" then (st, [])
  else
    match lookupA (st.clientOf c).roomId st.rooms with
    | none => (st, [])
    | some room =>
      match findById st msg.to_ room.clients with
      | none => (st, [])
      | some t => (st, [(t, { msg with from_ := (st.clientOf c).id })])

/-- The `user-left` notification built in `removeClientFromRoom`. -/
def userLeftMsg (st : State) (c : ClientPtr) : Message :=
  ⟨"user-left", (st.clientOf c).id, "", (st.clientOf c).roomId, "", ""⟩

/-- `removeClientFromRoom` of `src/unnamed/part_000`: no-op when
`client.RoomID` is empty or the room is missing; otherwise delete the
client pointer from the room's set, notify every remaining member, and
delete the room from the registry when the post-removal count is zero. -/
def removeClientFromRoom (st : State) (c : ClientPtr) : State × List Delivery :=
  let rid := (st.clientOf c).roomId
  if rid = "" then (st, [])
  else
    match lookupA rid st.rooms with
    | none => (st, [])
    | some room =>
      let clients1 := room.clients.filter (fun x => x ≠ c)
      let deliveries := clients1.map (fun o => (o, userLeftMsg st c))
      let rooms1 :=
        if clients1.length = 0 then eraseA rid st.rooms
        else insertA rid { room with clients := clients1 } st.rooms
      ({ st with rooms := rooms1 }, deliveries)

/-- `handleLeave` just delegates to `removeClientFromRoom`. -/
def handleLeave (st : State) (c : ClientPtr) (_msg : Message) : State × List Delivery :=
  removeClientFromRoom st c

/-- The read-loop's disconnect path: `if client.RoomID != "" {
removeClientFromRoom(client) }`. -/
def disconnectCleanup (st : State) (c : ClientPtr) : State × List Delivery :=
  if (st.clientOf c).roomId = "" then (st, []) else removeClientFromRoom st c

/-- The `switch msg.Type` dispatcher of the read loop; unrecognized tags
are ignored. -/
def handleMessage (st : State) (c : ClientPtr) (msg : Message) : State × List Delivery :=
  if msg.type_ = "join" then handleJoin st c msg
  else if msg.type_ = "offer" then handleSignaling st c msg
  else if msg.type_ = "answer" then handleSignaling st c msg
  else if msg.type_ = "ice-candidate" then handleSignaling st c msg
  else if msg.type_ = "leave" then handleLeave st c msg
  else (st, [])

end P0

namespace MG

/-- `struct Room` of `src/main.go`: `Clients map[string]*Client`. -/
structure Room where
  id : String
  clients : List (String × ClientPtr)
deriving DecidableEq, Repr

/-- Server state of `src/main.go`. -/
structure State where
  rooms : List (String × Room)
  clientOf : ClientPtr → ClientData

/-- Write through a `*Client` pointer. -/
def setClient (st : State) (c : ClientPtr) (f : ClientData → ClientData) : State :=
  { st with clientOf := fun p => if p = c then f (st.clientOf p) else st.clientOf p }

/-- `getOrCreateRoom` of `src/main.go`. -/
def getOrCreateRoom (rooms : List (String × Room)) (rid : String) :
    Room × List (String × Room) :=
  match lookupA rid rooms with
  | some r => (r, rooms)
  | none => (⟨rid, []⟩, insertA rid ⟨rid, []⟩ rooms)

/-- `notifyOthersInRoom` of `src/main.go`: look the sender's room up in
the current registry and send `msg` to every member whose map key
differs from the sender's `ID`. -/
def notifyOthersInRoom (st : State) (sender : ClientPtr) (msg : Message) : List Delivery :=
  match lookupA (st.clientOf sender).roomId st.rooms with
  | none => []
  | some room =>
    (room.clients.filter (fun e => e.1 ≠ (st.clientOf sender).id)).map (fun e => (e.2, msg))

/-- The `user-joined` notification built in `handleJoin` of `src/main.go`. -/
def userJoinedMsg (msg : Message) : Message :=
  ⟨"user-joined", msg.from_, "", msg.roomId, msg.username, ""⟩

/-- The `joined` confirmation of `src/main.go`. -/
def joinedMsg (msg : Message) : Message :=
  ⟨"joined", "", "", msg.roomId, "", ""⟩

/-- `handleJoin` of `src/main.go`: unconditionally set `ID`, `RoomID`,
`Username` from the envelope (there is **no** empty-`roomId` check),
get-or-create the room, store the client under key `client.ID`, send
`joined` to the client, then `notifyOthersInRoom` with `user-joined`. -/
def handleJoin (st : State) (c : ClientPtr) (msg : Message) : State × List Delivery :=
  let st1 := setClient st c (fun _ => ⟨msg.from_, msg.roomId, msg.username⟩)
  let rr := getOrCreateRoom st1.rooms msg.roomId
  let clients1 := insertA msg.from_ c rr.1.clients
  let st2 := { st1 with rooms := insertA msg.roomId { rr.1 with clients := clients1 } rr.2 }
  (st2, (c, joinedMsg msg) :: notifyOthersInRoom st2 c (userJoinedMsg msg))

/-- `handleSignaling` of `src/main.go`: drop on empty `To`, missing
room, or key `To` absent from the room's map; otherwise overwrite
`From` with `client.ID` and send to the stored target. -/
def handleSignaling (st : State) (c : ClientPtr) (msg : Message) : State × List Delivery :=
  if msg.to_ = "" then (st, [])
  else
    match lookupA (st.clientOf c).roomId st.rooms with
    | none => (st, [])
    | some room =>
      match lookupA msg.to_ room.clients with
      | none => (st, [])
      | some t => (st, [(t, { msg with from_ := (st.clientOf c).id })])

/-- The `user-left` notification built in `removeClientFromRoom`. -/
def userLeftMsg (st : State) (c : ClientPtr) : Message :=
  ⟨"user-left", (st.clientOf c).id, "", (st.clientOf c).roomId, "", ""⟩

/-- `removeClientFromRoom` of `src/main.go`: no-op when `client.RoomID`
is empty or the room is missing; otherwise `delete(room.Clients,
client.ID)` (by key!), notify others (exclusion by `ID`), and delete
the room from the registry when the post-removal count is zero. -/
def removeClientFromRoom (st : State) (c : ClientPtr) : State × List Delivery :=
  let rid := (st.clientOf c).roomId
  if rid = "" then (st, [])
  else
    match lookupA rid st.rooms with
    | none => (st, [])
    | some room =>
      let clients1 := eraseA (st.clientOf c).id room.clients
      let st1 := { st with rooms := insertA rid { room with clients := clients1 } st.rooms }
      let deliveries := notifyOthersInRoom st1 c (userLeftMsg st c)
      let rooms2 := if clients1.length = 0 then eraseA rid st1.rooms else st1.rooms
      ({ st with rooms := rooms2 }, deliveries)

/-- `handleLeave` just delegates to `removeClientFromRoom`. -/
def handleLeave (st : State) (c : ClientPtr) (_msg : Message) : State × List Delivery :=
  removeClientFromRoom st c

/-- The read-loop's disconnect path of `src/main.go`. -/
def disconnectCleanup (st : State) (c : ClientPtr) : State × List Delivery :=
  if (st.clientOf c).roomId = "" then (st, []) else removeClientFromRoom st c

/-- The `switch msg.Type` dispatcher of the read loop. -/
def handleMessage (st : State) (c : ClientPtr) (msg : Message) : State × List Delivery :=
  if msg.type_ = "join" then handleJoin st c msg
  else if msg.type_ = "offer" then handleSignaling st c msg
  else if msg.type_ = "answer" then handleSignaling st c msg
  else if msg.type_ = "ice-candidate" then handleSignaling st c msg
  else if msg.type_ = "leave" then handleLeave st c msg
  else (st, [])

end MG

/-! ### Concrete states used by the witnesses -/

/-- A heap with three identified sessions: pointer 0 is "a", 1 is "b",
2 is "g", all in room "R"; every other pointer is a fresh session. -/
def demoHeap : ClientPtr → ClientData := fun p =>
  if p = 0 then ⟨"a", "R", "ua"⟩
  else if p = 1 then ⟨"b", "R", "ub"⟩
  else if p = 2 then ⟨"g", "R", "ug"⟩
  else ⟨"", "", ""⟩

/-- part_000 demo state: room "R" holds the three sessions. -/
def demoP0 : P0.State := ⟨[("R", ⟨"R", [0, 1, 2]⟩)], demoHeap⟩

/-- main.go demo state: room "R" holds the three sessions under their ids. -/
def demoMG : MG.State := ⟨[("R", ⟨"R", [("a", 0), ("b", 1), ("g", 2)]⟩)], demoHeap⟩

/-- The all-empty heap. -/
def emptyHeap : ClientPtr → ClientData := fun _ => ⟨"", "", ""⟩

/-- part_000 initial state: no rooms, no identified sessions. -/
def emptyP0 : P0.State := ⟨[], emptyHeap⟩

/-- main.go initial state: no rooms, no identified sessions. -/
def emptyMG : MG.State := ⟨[], emptyHeap⟩

namespace P0

/-- The registry side of the reaping invariant: every registered room
has at least one member. -/
def RoomsNonempty (st : State) : Prop :=
  ∀ e ∈ st.rooms, e.2.clients ≠ []

end P0

namespace MG

/-- The registry side of the reaping invariant: every registered room
has at least one member. -/
def RoomsNonempty (st : State) : Prop :=
  ∀ e ∈ st.rooms, e.2.clients ≠ []

end MG

/-- A one-member part_000 room, for the reaping witness. -/
def reapP0 : P0.State := ⟨[("R", ⟨"R", [1]⟩)], demoHeap⟩

/-- A one-member main.go room, for the reaping witness. -/
def reapMG : MG.State := ⟨[("R", ⟨"R", [("b", 1)]⟩)], demoHeap⟩

namespace P0

/-! ### Claim C2 -/

/-- The membership list of the registered room `rid` (empty when the
room is not registered). -/
def roomClients (rs : List (String × Room)) (rid : String) : List ClientPtr :=
  match lookupA rid rs with
  | some r => r.clients
  | none => []

end P0

namespace MG

/-- The membership map of the registered room `rid` (empty when the
room is not registered). -/
def roomClients (rs : List (String × Room)) (rid : String) : List (String × ClientPtr) :=
  match lookupA rid rs with
  | some r => r.clients
  | none => []

end MG

/-! ### Claim C9 -/

/-- The scenario state for C9: room "R" holds one member under key "a",
the session pointer 1, whose stored fields are id "a", room "R". -/
def dupMG : MG.State :=
  ⟨[("R", ⟨"R", [("a", 1)]⟩)], fun p => if p = 1 then ⟨"a", "R", "u1"⟩ else ⟨"", "", ""⟩⟩

theorem lookupA_insertA_self {α : Type} (k : String) (v : α) (l : List (String × α)) :
    lookupA k (insertA k v l) = some v := by
  induction l with
  | nil => simp [insertA, lookupA]
  | cons e rest ih =>
    obtain ⟨k', v'⟩ := e
    by_cases h : k' = k
    · simp [insertA, lookupA, h]
    · simp [insertA, lookupA, h, ih]

theorem lookupA_insertA_ne {α : Type} {k k' : String} (v : α) (l : List (String × α))
    (h : k' ≠ k) : lookupA k' (insertA k v l) = lookupA k' l := by
  induction l with
  | nil => simp [insertA, lookupA, Ne.symm h]
  | cons e rest ih =>
    obtain ⟨k0, v0⟩ := e
    by_cases h0 : k0 = k
    · subst h0
      simp [insertA, lookupA, Ne.symm h]
    · simp [insertA, lookupA, h0, ih]

theorem lookupA_eraseA_self {α : Type} (k : String) (l : List (String × α)) :
    lookupA k (eraseA k l) = none := by
  induction l with
  | nil => simp [eraseA, lookupA]
  | cons e rest ih =>
    obtain ⟨k0, v0⟩ := e
    by_cases h0 : k0 = k
    · simpa [eraseA, lookupA, h0] using ih
    · simpa [eraseA, lookupA, h0] using ih

theorem lookupA_eraseA_ne {α : Type} {k k' : String} (l : List (String × α))
    (h : k' ≠ k) : lookupA k' (eraseA k l) = lookupA k' l := by
  induction l with
  | nil => simp [eraseA, lookupA]
  | cons e rest ih =>
    obtain ⟨k0, v0⟩ := e
    by_cases h0 : k0 = k
    · subst h0
      simp [eraseA, lookupA, Ne.symm h, ih]
    · simp [eraseA, lookupA, h0, ih]

theorem insertA_ne_nil {α : Type} (k : String) (v : α) (l : List (String × α)) :
    insertA k v l ≠ [] := by
  cases l with
  | nil => simp [insertA]
  | cons e rest =>
    obtain ⟨k0, v0⟩ := e
    by_cases h0 : k0 = k <;> simp [insertA, h0]

/-- Filtering out a key after a Go-map assignment at that key gives the
same entries as filtering the original map. -/
theorem filter_insertA {α : Type} (k : String) (v : α) (l : List (String × α)) :
    (insertA k v l).filter (fun e => e.1 ≠ k) = l.filter (fun e => e.1 ≠ k) := by
  induction l with
  | nil => simp [insertA]
  | cons e rest ih =>
    obtain ⟨k0, v0⟩ := e
    by_cases h0 : k0 = k
    · subst h0
      simp [insertA]
    · simp only [ne_eq, decide_not] at ih ⊢
      simp [insertA, List.filter_cons, h0, ih]

/-! ### Helper lemmas about the embedded map/set operations -/

theorem eraseA_sublist {α : Type} (k : String) (l : List (String × α)) :
    (eraseA k l).Sublist l := by
  induction l with
  | nil => simp [eraseA]
  | cons e rest ih =>
    obtain ⟨k0, v0⟩ := e
    by_cases h0 : k0 = k
    · simp only [eraseA, if_pos h0]
      exact List.Sublist.cons (k0, v0) ih
    · simp only [eraseA, if_neg h0]
      exact List.Sublist.cons₂ (k0, v0) ih

theorem mem_eraseA {α : Type} {k : String} {l : List (String × α)} {e : String × α}
    (he : e ∈ eraseA k l) : e ∈ l ∧ e.1 ≠ k := by
  induction l with
  | nil => simp [eraseA] at he
  | cons e0 rest ih =>
    obtain ⟨k0, v0⟩ := e0
    by_cases h0 : k0 = k
    · simp only [eraseA, if_pos h0] at he
      exact ⟨List.mem_cons_of_mem _ (ih he).1, (ih he).2⟩
    · simp only [eraseA, if_neg h0, List.mem_cons] at he
      rcases he with he | he
      · subst he
        exact ⟨List.mem_cons_self _ _, h0⟩
      · exact ⟨List.mem_cons_of_mem _ (ih he).1, (ih he).2⟩

theorem mem_eraseA_of_mem {α : Type} {k : String} {l : List (String × α)} {e : String × α}
    (he : e ∈ l) (hk : e.1 ≠ k) : e ∈ eraseA k l := by
  induction l with
  | nil => simp at he
  | cons e0 rest ih =>
    obtain ⟨k0, v0⟩ := e0
    rcases List.mem_cons.mp he with he0 | he0
    · subst he0
      simp [eraseA, if_neg hk]
    · by_cases h0 : k0 = k
      · simpa [eraseA, h0] using ih he0
      · simp [eraseA, h0, List.mem_cons]
        right
        exact ih he0

theorem filter_eraseA {α : Type} (k : String) (l : List (String × α)) :
    (eraseA k l).filter (fun e => e.1 ≠ k) = eraseA k l := by
  rw [List.filter_eq_self]
  intro e he
  simpa using (mem_eraseA he).2

theorem mem_insertA_nodup {α : Type} {k : String} {v : α} {l : List (String × α)}
    (hnd : (l.map Prod.fst).Nodup) {e : String × α} (he : e ∈ insertA k v l) :
    e = (k, v) ∨ (e ∈ l ∧ e.1 ≠ k) := by
  induction l with
  | nil => simp [insertA] at he; exact Or.inl he
  | cons e0 rest ih =>
    obtain ⟨k0, v0⟩ := e0
    simp only [List.map_cons, List.nodup_cons] at hnd
    by_cases h0 : k0 = k
    · have he2 : e ∈ (k, v) :: rest := by simpa [insertA, h0] using he
      rcases List.mem_cons.mp he2 with he | he
      · exact Or.inl he
      · refine Or.inr ⟨List.mem_cons_of_mem _ he, ?_⟩
        intro hk
        apply hnd.1
        rw [h0, ← hk]
        exact List.mem_map_of_mem Prod.fst he
    · simp only [insertA, if_neg h0, List.mem_cons] at he
      rcases he with he | he
      · subst he
        exact Or.inr ⟨List.mem_cons_self _ _, h0⟩
      · rcases ih hnd.2 he with h | h
        · exact Or.inl h
        · exact Or.inr ⟨List.mem_cons_of_mem _ h.1, h.2⟩

namespace P0

theorem mem_insertPtr_self (l : List ClientPtr) (c : ClientPtr) : c ∈ insertPtr l c := by
  unfold insertPtr
  by_cases h : c ∈ l <;> simp [h]

theorem filter_insertPtr (l : List ClientPtr) (c : ClientPtr) :
    (insertPtr l c).filter (fun o => o ≠ c) = l.filter (fun o => o ≠ c) := by
  unfold insertPtr
  by_cases h : c ∈ l <;> simp [h, List.filter_append]

theorem findById_eq_none (st : State) (i : String) (l : List ClientPtr)
    (h : ∀ p ∈ l, (st.clientOf p).id ≠ i) : findById st i l = none := by
  induction l with
  | nil => rfl
  | cons p rest ih =>
    simp only [findById, if_neg (h p (List.mem_cons_self _ _))]
    exact ih fun q hq => h q (List.mem_cons_of_mem _ hq)

theorem findById_eq_some (st : State) (i : String) (l : List ClientPtr) (B : ClientPtr)
    (hB : B ∈ l) (hid : (st.clientOf B).id = i)
    (huniq : ∀ p ∈ l, (st.clientOf p).id = i → p = B) : findById st i l = some B := by
  induction l with
  | nil => simp at hB
  | cons p rest ih =>
    by_cases hp : (st.clientOf p).id = i
    · have hpB : p = B := huniq p (List.mem_cons_self _ _) hp
      subst hpB
      simp [findById, hp]
    · have hB' : B ∈ rest := by
        rcases List.mem_cons.mp hB with h | h
        · exact absurd (h ▸ hid) hp
        · exact h
      simp only [findById, if_neg hp]
      exact ih hB' fun q hq => huniq q (List.mem_cons_of_mem _ hq)

theorem handleSignaling_fst (st : State) (c : ClientPtr) (msg : Message) :
    (handleSignaling st c msg).1 = st := by
  unfold handleSignaling
  split
  · rfl
  · split
    · rfl
    · split
      · rfl
      · rfl

end P0

namespace MG

theorem handleSignaling_fst_mg (st : State) (c : ClientPtr) (msg : Message) :
    (handleSignaling st c msg).1 = st := by
  unfold handleSignaling
  split
  · rfl
  · split
    · rfl
    · split
      · rfl
      · rfl

end MG

/-! ### Structural lemmas about the handlers -/

theorem lookupA_eq_none {α : Type} {k : String} {l : List (String × α)}
    (h : ∀ e ∈ l, e.1 ≠ k) : lookupA k l = none := by
  induction l with
  | nil => rfl
  | cons e rest ih =>
    obtain ⟨k0, v0⟩ := e
    simp only [lookupA, if_neg (h (k0, v0) (List.mem_cons_self _ _))]
    exact ih fun e' he' => h e' (List.mem_cons_of_mem _ he')

namespace P0

theorem handleMessage_signaling (st : State) (c : ClientPtr) (msg : Message)
    (h : msg.type_ = "offer" ∨ msg.type_ = "answer" ∨ msg.type_ = "ice-candidate") :
    handleMessage st c msg = handleSignaling st c msg := by
  rcases h with h | h | h <;> simp [handleMessage, h]

theorem handleMessage_join (st : State) (c : ClientPtr) (msg : Message)
    (h : msg.type_ = "join") : handleMessage st c msg = handleJoin st c msg := by
  simp [handleMessage, h]

theorem handleJoin_drop (st : State) (c : ClientPtr) (msg : Message)
    (h : msg.roomId = "") :
    handleJoin st c msg =
      (setClient st c (fun d => { d with id := msg.from_, username := msg.username }), []) := by
  simp [handleJoin, h]

theorem handleJoin_rooms (st : State) (c : ClientPtr) (msg : Message)
    (h : msg.roomId ≠ "") :
    (handleJoin st c msg).1.rooms =
      insertA msg.roomId
        ⟨(getOrCreate st.rooms msg.roomId).1.id,
          insertPtr (getOrCreate st.rooms msg.roomId).1.clients c⟩
        (getOrCreate st.rooms msg.roomId).2 := by
  simp [handleJoin, h, setClient]

theorem handleJoin_clientOf (st : State) (c : ClientPtr) (msg : Message)
    (h : msg.roomId ≠ "") :
    (handleJoin st c msg).1.clientOf =
      fun p => if p = c then ⟨msg.from_, msg.roomId, msg.username⟩ else st.clientOf p := by
  funext p
  by_cases hp : p = c <;> simp [handleJoin, h, setClient, hp]

theorem handleJoin_deliveries (st : State) (c : ClientPtr) (msg : Message)
    (h : msg.roomId ≠ "") :
    (handleJoin st c msg).2 =
      ((insertPtr (getOrCreate st.rooms msg.roomId).1.clients c).filter
          (fun o => o ≠ c)).map (fun o => (o, userJoinedMsg msg)) ++
        [(c, joinedMsg msg)] := by
  simp [handleJoin, h, setClient]

end P0

namespace MG

theorem handleMessage_signaling_mg (st : State) (c : ClientPtr) (msg : Message)
    (h : msg.type_ = "offer" ∨ msg.type_ = "answer" ∨ msg.type_ = "ice-candidate") :
    handleMessage st c msg = handleSignaling st c msg := by
  rcases h with h | h | h <;> simp [handleMessage, h]

theorem handleMessage_join_mg (st : State) (c : ClientPtr) (msg : Message)
    (h : msg.type_ = "join") : handleMessage st c msg = handleJoin st c msg := by
  simp [handleMessage, h]

theorem handleJoin_rooms_mg (st : State) (c : ClientPtr) (msg : Message) :
    (handleJoin st c msg).1.rooms =
      insertA msg.roomId
        ⟨(getOrCreateRoom st.rooms msg.roomId).1.id,
          insertA msg.from_ c (getOrCreateRoom st.rooms msg.roomId).1.clients⟩
        (getOrCreateRoom st.rooms msg.roomId).2 := by
  simp [handleJoin, setClient]

theorem handleJoin_clientOf_mg (st : State) (c : ClientPtr) (msg : Message) :
    (handleJoin st c msg).1.clientOf =
      fun p => if p = c then ⟨msg.from_, msg.roomId, msg.username⟩ else st.clientOf p := by
  funext p
  by_cases hp : p = c <;> simp [handleJoin, setClient, hp]

end MG

/-! ### Claim C7 -/

/-- C7: for every `offer`/`answer`/`ice-candidate` envelope whose `to`
is empty, whose sender's room is absent from the registry, or whose `to`
matches no member of the sender's room, the operation is a silent no-op:
no delivery, no error reply, and the whole server state (registry, room
memberships, session fields) is unchanged — in both implementations. -/
theorem C7_signaling_silent_noop :
    (∀ (st : P0.State) (c : ClientPtr) (msg : Message),
      msg.type_ = "offer" ∨ msg.type_ = "answer" ∨ msg.type_ = "ice-candidate" →
      (msg.to_ = "" → P0.handleMessage st c msg = (st, [])) ∧
      (lookupA (st.clientOf c).roomId st.rooms = none →
        P0.handleMessage st c msg = (st, [])) ∧
      (∀ room, lookupA (st.clientOf c).roomId st.rooms = some room →
        (∀ p ∈ room.clients, (st.clientOf p).id ≠ msg.to_) →
        P0.handleMessage st c msg = (st, []))) ∧
    (∀ (st : MG.State) (c : ClientPtr) (msg : Message),
      msg.type_ = "offer" ∨ msg.type_ = "answer" ∨ msg.type_ = "ice-candidate" →
      (msg.to_ = "" → MG.handleMessage st c msg = (st, [])) ∧
      (lookupA (st.clientOf c).roomId st.rooms = none →
        MG.handleMessage st c msg = (st, [])) ∧
      (∀ room, lookupA (st.clientOf c).roomId st.rooms = some room →
        (∀ e ∈ room.clients, e.1 ≠ msg.to_) →
        MG.handleMessage st c msg = (st, []))) := by
  constructor
  · intro st c msg htype
    rw [P0.handleMessage_signaling st c msg htype]
    refine ⟨fun hto => by simp [P0.handleSignaling, hto], ?_, ?_⟩
    · intro hlook
      by_cases hto : msg.to_ = ""
      · simp [P0.handleSignaling, hto]
      · simp [P0.handleSignaling, hto, hlook]
    · intro room hlook hmem
      by_cases hto : msg.to_ = ""
      · simp [P0.handleSignaling, hto]
      · simp [P0.handleSignaling, hto, hlook, P0.findById_eq_none st msg.to_ room.clients hmem]
  · intro st c msg htype
    rw [MG.handleMessage_signaling_mg st c msg htype]
    refine ⟨fun hto => by simp [MG.handleSignaling, hto], ?_, ?_⟩
    · intro hlook
      by_cases hto : msg.to_ = ""
      · simp [MG.handleSignaling, hto]
      · simp [MG.handleSignaling, hto, hlook]
    · intro room hlook hmem
      by_cases hto : msg.to_ = ""
      · simp [MG.handleSignaling, hto]
      · simp [MG.handleSignaling, hto, hlook, lookupA_eq_none hmem]

/-- Witness for C7: in the demo rooms, an `answer` addressed to the
unknown id "ghost" (and, in the main.go model, an `offer` with empty
`to`) is dropped with state unchanged. -/
theorem C7_signaling_silent_noop_witness :
    (lookupA (demoP0.clientOf 0).roomId demoP0.rooms = some ⟨"R", [0, 1, 2]⟩) ∧
    (∀ p ∈ ([0, 1, 2] : List ClientPtr), (demoP0.clientOf p).id ≠ "ghost") ∧
    P0.handleMessage demoP0 0 ⟨"answer", "x", "ghost", "", "", "sdp"⟩ = (demoP0, []) ∧
    MG.handleMessage demoMG 0 ⟨"offer", "x", "", "", "", "sdp"⟩ = (demoMG, []) :=
  ⟨by decide, by decide,
    (C7_signaling_silent_noop.1 demoP0 0 ⟨"answer", "x", "ghost", "", "", "sdp"⟩
        (Or.inr (Or.inl rfl))).2.2 ⟨"R", [0, 1, 2]⟩ (by decide) (by decide),
    (C7_signaling_silent_noop.2 demoMG 0 ⟨"offer", "x", "", "", "", "sdp"⟩
        (Or.inl rfl)).1 rfl⟩

/-! ### Claim C10 -/

/-- C10: in `src/unnamed/part_000`, a `join` with empty `roomId`,
although dropped, still overwrites the session's `id` and `username`
with the envelope's `from`/`username`; only the session's `roomId` (and
everything else: other sessions, the registry, the delivery log) is
left unchanged. -/
theorem C10_dropped_join_overwrites_identity :
    ∀ (st : P0.State) (c : ClientPtr) (msg : Message),
      msg.type_ = "join" → msg.roomId = "" →
      ((P0.handleMessage st c msg).1.clientOf c).id = msg.from_ ∧
      ((P0.handleMessage st c msg).1.clientOf c).username = msg.username ∧
      ((P0.handleMessage st c msg).1.clientOf c).roomId = (st.clientOf c).roomId ∧
      (∀ p, p ≠ c → (P0.handleMessage st c msg).1.clientOf p = st.clientOf p) ∧
      (P0.handleMessage st c msg).1.rooms = st.rooms ∧
      (P0.handleMessage st c msg).2 = [] := by
  intro st c msg htype hroom
  rw [P0.handleMessage_join st c msg htype, P0.handleJoin_drop st c msg hroom]
  refine ⟨by simp [P0.setClient], by simp [P0.setClient], by simp [P0.setClient], ?_,
    by simp [P0.setClient], rfl⟩
  intro p hp
  simp [P0.setClient, hp]

/-- Witness for C10: a `join` without `roomId` from a fresh session sets
its id to "a" and username to "u" while leaving it roomless. -/
theorem C10_dropped_join_overwrites_identity_witness :
    ((P0.handleMessage emptyP0 5 ⟨"join", "a", "", "", "u", ""⟩).1.clientOf 5).id = "a" ∧
    ((P0.handleMessage emptyP0 5 ⟨"join", "a", "", "", "u", ""⟩).1.clientOf 5).username = "u" ∧
    ((P0.handleMessage emptyP0 5 ⟨"join", "a", "", "", "u", ""⟩).1.clientOf 5).roomId =
      (emptyP0.clientOf 5).roomId ∧
    (P0.handleMessage emptyP0 5 ⟨"join", "a", "", "", "u", ""⟩).2 = [] := by
  have h := C10_dropped_join_overwrites_identity emptyP0 5 ⟨"join", "a", "", "", "u", ""⟩ rfl rfl
  exact ⟨h.1, h.2.1, h.2.2.1, h.2.2.2.2.2⟩

/-! ### Claim C5 -/

/-- Counterexample to C5: in `src/main.go`, a `join` with empty `roomId`
is *not* dropped.  From the initial state, pointer 0 sending
`join{from:"a", username:"u"}` creates a room whose id is the empty
string, stores the session in it, marks the session joined to room "",
and replies with a `joined` envelope. -/
theorem C5_counterexample_maingo_joins_empty_room :
    (MG.handleMessage emptyMG 0 ⟨"join", "a", "", "", "u", ""⟩).1.rooms =
      [("", ⟨"", [("a", 0)]⟩)] ∧
    ((MG.handleMessage emptyMG 0 ⟨"join", "a", "", "", "u", ""⟩).1.clientOf 0).roomId = "" ∧
    (MG.handleMessage emptyMG 0 ⟨"join", "a", "", "", "u", ""⟩).2 =
      [(0, ⟨"joined", "", "", "", "", ""⟩)] := by
  refine ⟨by decide, by decide, by decide⟩

/-- C5 (amended): in `src/unnamed/part_000`, a `join` whose `roomId` is
empty is dropped: the registry is unchanged (no room created or
entered), the session's `roomId` stays as it was (it remains unjoined),
and nothing at all is delivered (in particular no error reply).
`src/main.go` lacks this check and processes the join against the room
whose id is the empty string. -/
theorem C5_join_empty_roomid_dropped :
    ∀ (st : P0.State) (c : ClientPtr) (msg : Message),
      msg.type_ = "join" → msg.roomId = "" →
      (P0.handleMessage st c msg).1.rooms = st.rooms ∧
      ((P0.handleMessage st c msg).1.clientOf c).roomId = (st.clientOf c).roomId ∧
      (P0.handleMessage st c msg).2 = [] := by
  intro st c msg htype hroom
  rw [P0.handleMessage_join st c msg htype, P0.handleJoin_drop st c msg hroom]
  exact ⟨by simp [P0.setClient], by simp [P0.setClient], rfl⟩

/-- Witness for the amended C5: a `join` without `roomId` from a fresh
part_000 session leaves the registry empty, the session unjoined, and
delivers nothing. -/
theorem C5_join_empty_roomid_dropped_witness :
    (P0.handleMessage emptyP0 7 ⟨"join", "b", "", "", "w", ""⟩).1.rooms = emptyP0.rooms ∧
    ((P0.handleMessage emptyP0 7 ⟨"join", "b", "", "", "w", ""⟩).1.clientOf 7).roomId =
      (emptyP0.clientOf 7).roomId ∧
    (P0.handleMessage emptyP0 7 ⟨"join", "b", "", "", "w", ""⟩).2 = [] :=
  C5_join_empty_roomid_dropped emptyP0 7 ⟨"join", "b", "", "", "w", ""⟩ rfl rfl

/-! ### Claim C8 -/

/-- C8: a second `join` to a different, non-empty room adds the session
to the new room without removing it from the old one: afterwards it is
simultaneously in both rooms' membership sets, in both implementations
(in main.go the stale entry stays under the old id key). -/
theorem C8_rejoin_dual_membership :
    (∀ (st : P0.State) (c : ClientPtr) (msg : Message) (r1 : P0.Room) (rid1 : String),
      msg.type_ = "join" → lookupA rid1 st.rooms = some r1 → c ∈ r1.clients →
      msg.roomId ≠ "" → msg.roomId ≠ rid1 →
      lookupA rid1 (P0.handleMessage st c msg).1.rooms = some r1 ∧
      c ∈ r1.clients ∧
      (∃ r2, lookupA msg.roomId (P0.handleMessage st c msg).1.rooms = some r2 ∧
        c ∈ r2.clients)) ∧
    (∀ (st : MG.State) (c : ClientPtr) (msg : Message) (r1 : MG.Room) (rid1 i1 : String),
      msg.type_ = "join" → lookupA rid1 st.rooms = some r1 → lookupA i1 r1.clients = some c →
      msg.roomId ≠ "" → msg.roomId ≠ rid1 →
      lookupA rid1 (MG.handleMessage st c msg).1.rooms = some r1 ∧
      lookupA i1 r1.clients = some c ∧
      (∃ r2, lookupA msg.roomId (MG.handleMessage st c msg).1.rooms = some r2 ∧
        lookupA msg.from_ r2.clients = some c)) := by
  constructor
  · intro st c msg r1 rid1 htype hr1 hc hne hne1
    rw [P0.handleMessage_join st c msg htype]
    have hroomseq := P0.handleJoin_rooms st c msg hne
    have hne1' : rid1 ≠ msg.roomId := fun h => hne1 h.symm
    refine ⟨?_, hc, ?_⟩
    · rw [hroomseq, lookupA_insertA_ne _ _ hne1']
      unfold P0.getOrCreate
      cases hl : lookupA msg.roomId st.rooms with
      | some r => simpa [hl] using hr1
      | none => simp only [hl]; rw [lookupA_insertA_ne _ _ hne1']; exact hr1
    · refine ⟨⟨(P0.getOrCreate st.rooms msg.roomId).1.id,
        P0.insertPtr (P0.getOrCreate st.rooms msg.roomId).1.clients c⟩, ?_, ?_⟩
      · rw [hroomseq, lookupA_insertA_self]
      · exact P0.mem_insertPtr_self _ c
  · intro st c msg r1 rid1 i1 htype hr1 hc hne hne1
    rw [MG.handleMessage_join_mg st c msg htype]
    have hroomseq := MG.handleJoin_rooms_mg st c msg
    have hne1' : rid1 ≠ msg.roomId := fun h => hne1 h.symm
    refine ⟨?_, hc, ?_⟩
    · rw [hroomseq, lookupA_insertA_ne _ _ hne1']
      unfold MG.getOrCreateRoom
      cases hl : lookupA msg.roomId st.rooms with
      | some r => simpa [hl] using hr1
      | none => simp only [hl]; rw [lookupA_insertA_ne _ _ hne1']; exact hr1
    · refine ⟨⟨(MG.getOrCreateRoom st.rooms msg.roomId).1.id,
        insertA msg.from_ c (MG.getOrCreateRoom st.rooms msg.roomId).1.clients⟩, ?_, ?_⟩
      · rw [hroomseq, lookupA_insertA_self]
      · exact lookupA_insertA_self _ _ _

/-- Witness for C8: session 0 ("a"), a member of room "R", joins room
"S"; afterwards it is a member of both "R" and "S" in both models. -/
theorem C8_rejoin_dual_membership_witness :
    (lookupA "R" demoP0.rooms = some ⟨"R", [0, 1, 2]⟩ ∧
      (0 : ClientPtr) ∈ ([0, 1, 2] : List ClientPtr) ∧
      lookupA "R" (P0.handleMessage demoP0 0 ⟨"join", "a", "", "S", "ua", ""⟩).1.rooms =
        some ⟨"R", [0, 1, 2]⟩ ∧
      (∃ r2, lookupA "S" (P0.handleMessage demoP0 0 ⟨"join", "a", "", "S", "ua", ""⟩).1.rooms =
          some r2 ∧ (0 : ClientPtr) ∈ r2.clients)) ∧
    (lookupA "R" demoMG.rooms = some ⟨"R", [("a", 0), ("b", 1), ("g", 2)]⟩ ∧
      lookupA "a" (⟨"R", [("a", 0), ("b", 1), ("g", 2)]⟩ : MG.Room).clients = some 0 ∧
      lookupA "R" (MG.handleMessage demoMG 0 ⟨"join", "a", "", "S", "ua", ""⟩).1.rooms =
        some ⟨"R", [("a", 0), ("b", 1), ("g", 2)]⟩ ∧
      (∃ r2, lookupA "S" (MG.handleMessage demoMG 0 ⟨"join", "a", "", "S", "ua", ""⟩).1.rooms =
          some r2 ∧ lookupA "a" r2.clients = some 0)) := by
  have h1 := C8_rejoin_dual_membership.1 demoP0 0 ⟨"join", "a", "", "S", "ua", ""⟩
    ⟨"R", [0, 1, 2]⟩ "R" rfl (by decide) (by decide) (by decide) (by decide)
  have h2 := C8_rejoin_dual_membership.2 demoMG 0 ⟨"join", "a", "", "S", "ua", ""⟩
    ⟨"R", [("a", 0), ("b", 1), ("g", 2)]⟩ "R" "a" rfl (by decide) (by decide)
    (by decide) (by decide)
  exact ⟨⟨by decide, by decide, h1.1, h1.2.2⟩, ⟨by decide, by decide, h2.1, h2.2.2⟩⟩

namespace P0

/-! ### Claim C3 -/

theorem removeClientFromRoom_eq (st : State) (c : ClientPtr) (room : Room)
    (h : (st.clientOf c).roomId ≠ "")
    (hl : lookupA (st.clientOf c).roomId st.rooms = some room) :
    removeClientFromRoom st c =
      (⟨if (room.clients.filter (fun x => x ≠ c)).length = 0
          then eraseA (st.clientOf c).roomId st.rooms
          else insertA (st.clientOf c).roomId
            ⟨room.id, room.clients.filter (fun x => x ≠ c)⟩ st.rooms,
        st.clientOf⟩,
       (room.clients.filter (fun x => x ≠ c)).map (fun o => (o, userLeftMsg st c))) := by
  simp [removeClientFromRoom, h, hl]

end P0

/-- C3: in `src/unnamed/part_000`, every envelope the router sends to a
third party carries `from` equal to the originating session's stored id:
a forwarded `offer`/`answer`/`ice-candidate` carries the sender's
`client.ID` (and the output is entirely independent of the inbound
envelope's `from` field); every `user-joined` notification carries the
joiner's stored id as it stands after the join; every `user-left`
notification carries the departing session's stored id. -/
theorem C3_from_overwritten_with_session_id :
    (∀ (st : P0.State) (c : ClientPtr) (msg : Message) (d : Delivery),
      d ∈ (P0.handleSignaling st c msg).2 → d.2.from_ = (st.clientOf c).id) ∧
    (∀ (st : P0.State) (c : ClientPtr) (msg : Message) (x : String),
      P0.handleSignaling st c { msg with from_ := x } = P0.handleSignaling st c msg) ∧
    (∀ (st : P0.State) (c : ClientPtr) (msg : Message) (d : Delivery),
      d ∈ (P0.handleJoin st c msg).2 → d.2.type_ = "user-joined" →
      d.2.from_ = ((P0.handleJoin st c msg).1.clientOf c).id) ∧
    (∀ (st : P0.State) (c : ClientPtr) (d : Delivery),
      d ∈ (P0.removeClientFromRoom st c).2 → d.2.from_ = (st.clientOf c).id) := by
  refine ⟨?_, ?_, ?_, ?_⟩
  · intro st c msg d hd
    unfold P0.handleSignaling at hd
    split at hd
    · simp at hd
    · split at hd
      · simp at hd
      · split at hd
        · simp at hd
        · simp only [List.mem_singleton] at hd
          subst hd
          rfl
  · intro st c msg x
    rfl
  · intro st c msg d hd htype
    by_cases h : msg.roomId = ""
    · rw [P0.handleJoin_drop st c msg h] at hd
      simp at hd
    · rw [P0.handleJoin_deliveries st c msg h] at hd
      rw [P0.handleJoin_clientOf st c msg h]
      simp only [if_pos rfl]
      rcases List.mem_append.mp hd with hd | hd
      · rcases List.mem_map.mp hd with ⟨o, _, ho⟩
        rw [← ho]
        rfl
      · simp only [List.mem_singleton] at hd
        subst hd
        simp [P0.joinedMsg] at htype
  · intro st c d hd
    by_cases h : (st.clientOf c).roomId = ""
    · simp [P0.removeClientFromRoom, h] at hd
    · cases hl : lookupA (st.clientOf c).roomId st.rooms with
      | none => simp [P0.removeClientFromRoom, h, hl] at hd
      | some room =>
        rw [P0.removeClientFromRoom_eq st c room h hl] at hd
        rcases List.mem_map.mp hd with ⟨o, _, ho⟩
        rw [← ho]
        rfl

/-- Witness for C3: forwarding an offer that spoofs `from:"spoof"` still
delivers it with `from:"a"`, the sender's stored id; a `user-left` from
session 1 carries "b". -/
theorem C3_from_overwritten_with_session_id_witness :
    ((1 : ClientPtr), (⟨"offer", "a", "b", "", "", "sdp1"⟩ : Message)) ∈
      (P0.handleSignaling demoP0 0 ⟨"offer", "spoof", "b", "", "", "sdp1"⟩).2 ∧
    (⟨"offer", "spoof", "b", "", "", "sdp1"⟩ : Message).from_ ≠ (demoP0.clientOf 0).id ∧
    ((1 : ClientPtr), (⟨"offer", "a", "b", "", "", "sdp1"⟩ : Message)).2.from_ =
      (demoP0.clientOf 0).id ∧
    ((0 : ClientPtr), (⟨"user-left", "b", "", "R", "", ""⟩ : Message)) ∈
      (P0.removeClientFromRoom demoP0 1).2 ∧
    ((0 : ClientPtr), (⟨"user-left", "b", "", "R", "", ""⟩ : Message)).2.from_ =
      (demoP0.clientOf 1).id :=
  ⟨by decide, by decide,
    C3_from_overwritten_with_session_id.1 demoP0 0 ⟨"offer", "spoof", "b", "", "", "sdp1"⟩
      (1, ⟨"offer", "a", "b", "", "", "sdp1"⟩) (by decide),
    by decide,
    C3_from_overwritten_with_session_id.2.2.2 demoP0 1
      (0, ⟨"user-left", "b", "", "R", "", ""⟩) (by decide)⟩

/-! ### Claim C1 -/

/-- C1: unicast routing.  If the sender's room is registered and `B` is
the member whose (unique) id equals the envelope's non-empty `to`, then
processing an `offer`/`answer`/`ice-candidate` delivers exactly one
envelope, to `B`, identical to the input except that `from` is
overwritten with the sender's stored id (`type` and `data` verbatim);
no other member receives anything and the state is unchanged.  In the
main.go model the room map is id-keyed, so uniqueness is structural. -/
theorem C1_unicast_routing :
    (∀ (st : P0.State) (c : ClientPtr) (msg : Message) (room : P0.Room) (B : ClientPtr),
      msg.type_ = "offer" ∨ msg.type_ = "answer" ∨ msg.type_ = "ice-candidate" →
      msg.to_ ≠ "" →
      lookupA (st.clientOf c).roomId st.rooms = some room →
      B ∈ room.clients → (st.clientOf B).id = msg.to_ →
      (∀ p ∈ room.clients, (st.clientOf p).id = msg.to_ → p = B) →
      P0.handleMessage st c msg = (st, [(B, { msg with from_ := (st.clientOf c).id })])) ∧
    (∀ (st : MG.State) (c : ClientPtr) (msg : Message) (room : MG.Room) (B : ClientPtr),
      msg.type_ = "offer" ∨ msg.type_ = "answer" ∨ msg.type_ = "ice-candidate" →
      msg.to_ ≠ "" →
      lookupA (st.clientOf c).roomId st.rooms = some room →
      lookupA msg.to_ room.clients = some B →
      MG.handleMessage st c msg = (st, [(B, { msg with from_ := (st.clientOf c).id })])) := by
  constructor
  · intro st c msg room B htype hto hlook hBmem hBid huniq
    rw [P0.handleMessage_signaling st c msg htype]
    have hf : P0.findById st msg.to_ room.clients = some B :=
      P0.findById_eq_some st msg.to_ room.clients B hBmem hBid huniq
    simp [P0.handleSignaling, hto, hlook, hf]
  · intro st c msg room B htype hto hlook hBlook
    rw [MG.handleMessage_signaling_mg st c msg htype]
    simp [MG.handleSignaling, hto, hlook, hBlook]

/-- Witness for C1: "a" (session 0) sends an offer to "b" in room "R";
exactly session 1 receives it, with `from` overwritten to "a" and the
SDP payload verbatim, in both models. -/
theorem C1_unicast_routing_witness :
    (lookupA (demoP0.clientOf 0).roomId demoP0.rooms = some ⟨"R", [0, 1, 2]⟩ ∧
      (1 : ClientPtr) ∈ ([0, 1, 2] : List ClientPtr) ∧
      (demoP0.clientOf 1).id = "b" ∧
      P0.handleMessage demoP0 0 ⟨"offer", "spoof", "b", "", "", "sdp1"⟩ =
        (demoP0, [(1, ⟨"offer", "a", "b", "", "", "sdp1"⟩)])) ∧
    (lookupA (demoMG.clientOf 0).roomId demoMG.rooms =
        some ⟨"R", [("a", 0), ("b", 1), ("g", 2)]⟩ ∧
      lookupA "b" (⟨"R", [("a", 0), ("b", 1), ("g", 2)]⟩ : MG.Room).clients = some 1 ∧
      MG.handleMessage demoMG 0 ⟨"offer", "spoof", "b", "", "", "sdp1"⟩ =
        (demoMG, [(1, ⟨"offer", "a", "b", "", "", "sdp1"⟩)])) := by
  have h1 := C1_unicast_routing.1 demoP0 0 ⟨"offer", "spoof", "b", "", "", "sdp1"⟩
    ⟨"R", [0, 1, 2]⟩ 1 (Or.inl rfl) (by decide) (by decide) (by decide) (by decide) (by decide)
  have h2 := C1_unicast_routing.2 demoMG 0 ⟨"offer", "spoof", "b", "", "", "sdp1"⟩
    ⟨"R", [("a", 0), ("b", 1), ("g", 2)]⟩ 1 (Or.inl rfl) (by decide) (by decide) (by decide)
  exact ⟨⟨by decide, by decide, by decide, h1⟩, ⟨by decide, by decide, h2⟩⟩

/-! ### Claim C4 -/

theorem insertA_insertA {α : Type} (k : String) (v w : α) (l : List (String × α)) :
    insertA k v (insertA k w l) = insertA k v l := by
  induction l with
  | nil => simp [insertA]
  | cons e rest ih =>
    obtain ⟨k0, v0⟩ := e
    by_cases h0 : k0 = k
    · simp [insertA, h0]
    · simp [insertA, h0, ih]

theorem mem_insertA_weak {α : Type} {k : String} {v : α} {l : List (String × α)}
    {e : String × α} (he : e ∈ insertA k v l) : e = (k, v) ∨ e ∈ l := by
  induction l with
  | nil =>
    simp [insertA] at he
    exact Or.inl he
  | cons e0 rest ih =>
    obtain ⟨k0, v0⟩ := e0
    by_cases h0 : k0 = k
    · have h1 : e ∈ (k, v) :: rest := by simpa [insertA, h0] using he
      rcases List.mem_cons.mp h1 with h | h
      · exact Or.inl h
      · exact Or.inr (List.mem_cons_of_mem _ h)
    · have h1 : e ∈ (k0, v0) :: insertA k v rest := by simpa [insertA, h0] using he
      rcases List.mem_cons.mp h1 with h | h
      · subst h
        exact Or.inr (List.mem_cons_self _ _)
      · rcases ih h with h2 | h2
        · exact Or.inl h2
        · exact Or.inr (List.mem_cons_of_mem _ h2)

namespace P0

theorem insertPtr_ne_nil (l : List ClientPtr) (c : ClientPtr) : insertPtr l c ≠ [] := by
  unfold insertPtr
  by_cases h : c ∈ l
  · simp only [if_pos h]
    exact List.ne_nil_of_mem h
  · simp [if_neg h]

theorem handleJoin_preserves (st : State) (c : ClientPtr) (msg : Message)
    (h : RoomsNonempty st) : RoomsNonempty (handleJoin st c msg).1 := by
  by_cases hr : msg.roomId = ""
  · rw [handleJoin_drop st c msg hr]
    exact h
  · intro e he
    rw [handleJoin_rooms st c msg hr] at he
    cases hl : lookupA msg.roomId st.rooms with
    | some room =>
      rw [show getOrCreate st.rooms msg.roomId = (room, st.rooms) from by
        unfold getOrCreate; rw [hl]] at he
      rcases mem_insertA_weak he with he | he
      · subst he
        exact insertPtr_ne_nil room.clients c
      · exact h e he
    | none =>
      rw [show getOrCreate st.rooms msg.roomId =
          (⟨msg.roomId, []⟩, insertA msg.roomId ⟨msg.roomId, []⟩ st.rooms) from by
        unfold getOrCreate; rw [hl]] at he
      rw [insertA_insertA] at he
      rcases mem_insertA_weak he with he | he
      · subst he
        exact insertPtr_ne_nil [] c
      · exact h e he

theorem removeClientFromRoom_preserves (st : State) (c : ClientPtr)
    (h : RoomsNonempty st) : RoomsNonempty (removeClientFromRoom st c).1 := by
  by_cases hr : (st.clientOf c).roomId = ""
  · simp only [removeClientFromRoom, if_pos hr]
    exact h
  · cases hl : lookupA (st.clientOf c).roomId st.rooms with
    | none =>
      simp only [removeClientFromRoom, if_neg hr, hl]
      exact h
    | some room =>
      rw [removeClientFromRoom_eq st c room hr hl]
      intro e he
      by_cases hlen : (room.clients.filter (fun x => x ≠ c)).length = 0
      · simp only [if_pos hlen] at he
        exact h e (mem_eraseA he).1
      · simp only [if_neg hlen] at he
        rcases mem_insertA_weak he with he | he
        · subst he
          simp only [ne_eq]
          intro hnil
          exact hlen (by rw [hnil]; rfl)
        · exact h e he

theorem handleMessage_preserves (st : State) (c : ClientPtr) (msg : Message)
    (h : RoomsNonempty st) : RoomsNonempty (handleMessage st c msg).1 := by
  unfold handleMessage
  split_ifs with h1 h2 h3 h4 h5
  · exact handleJoin_preserves st c msg h
  · rw [handleSignaling_fst]
    exact h
  · rw [handleSignaling_fst]
    exact h
  · rw [handleSignaling_fst]
    exact h
  · exact removeClientFromRoom_preserves st c h
  · exact h

theorem disconnectCleanup_preserves (st : State) (c : ClientPtr)
    (h : RoomsNonempty st) : RoomsNonempty (disconnectCleanup st c).1 := by
  unfold disconnectCleanup
  split_ifs with h1
  · exact h
  · exact removeClientFromRoom_preserves st c h

end P0

namespace MG

theorem removeClientFromRoom_eq_mg (st : State) (c : ClientPtr) (room : Room)
    (h : (st.clientOf c).roomId ≠ "")
    (hl : lookupA (st.clientOf c).roomId st.rooms = some room) :
    removeClientFromRoom st c =
      (⟨if (eraseA (st.clientOf c).id room.clients).length = 0
          then eraseA (st.clientOf c).roomId
            (insertA (st.clientOf c).roomId
              ⟨room.id, eraseA (st.clientOf c).id room.clients⟩ st.rooms)
          else insertA (st.clientOf c).roomId
            ⟨room.id, eraseA (st.clientOf c).id room.clients⟩ st.rooms,
        st.clientOf⟩,
       notifyOthersInRoom
         ⟨insertA (st.clientOf c).roomId
             ⟨room.id, eraseA (st.clientOf c).id room.clients⟩ st.rooms,
           st.clientOf⟩
         c (userLeftMsg st c)) := by
  simp [removeClientFromRoom, h, hl]

theorem removeClientFromRoom_deliveries (st : State) (c : ClientPtr) (room : Room)
    (h : (st.clientOf c).roomId ≠ "")
    (hl : lookupA (st.clientOf c).roomId st.rooms = some room) :
    (removeClientFromRoom st c).2 =
      (eraseA (st.clientOf c).id room.clients).map
        (fun e => (e.2, userLeftMsg st c)) := by
  rw [removeClientFromRoom_eq_mg st c room h hl]
  show notifyOthersInRoom _ c (userLeftMsg st c) = _
  unfold notifyOthersInRoom
  simp only [lookupA_insertA_self]
  rw [filter_eraseA]

theorem handleJoin_preserves_mg (st : State) (c : ClientPtr) (msg : Message)
    (h : RoomsNonempty st) : RoomsNonempty (handleJoin st c msg).1 := by
  intro e he
  rw [handleJoin_rooms_mg st c msg] at he
  cases hl : lookupA msg.roomId st.rooms with
  | some room =>
    rw [show getOrCreateRoom st.rooms msg.roomId = (room, st.rooms) from by
      unfold getOrCreateRoom; rw [hl]] at he
    rcases mem_insertA_weak he with he | he
    · subst he
      exact insertA_ne_nil _ _ _
    · exact h e he
  | none =>
    rw [show getOrCreateRoom st.rooms msg.roomId =
        (⟨msg.roomId, []⟩, insertA msg.roomId ⟨msg.roomId, []⟩ st.rooms) from by
      unfold getOrCreateRoom; rw [hl]] at he
    rw [insertA_insertA] at he
    rcases mem_insertA_weak he with he | he
    · subst he
      exact insertA_ne_nil _ _ _
    · exact h e he

theorem removeClientFromRoom_preserves_mg (st : State) (c : ClientPtr)
    (h : RoomsNonempty st) : RoomsNonempty (removeClientFromRoom st c).1 := by
  by_cases hr : (st.clientOf c).roomId = ""
  · simp only [removeClientFromRoom, if_pos hr]
    exact h
  · cases hl : lookupA (st.clientOf c).roomId st.rooms with
    | none =>
      simp only [removeClientFromRoom, if_neg hr, hl]
      exact h
    | some room =>
      rw [removeClientFromRoom_eq_mg st c room hr hl]
      intro e he
      by_cases hlen : (eraseA (st.clientOf c).id room.clients).length = 0
      · simp only [if_pos hlen] at he
        have h2 := mem_eraseA he
        rcases mem_insertA_weak h2.1 with h1 | h1
        · exact absurd (by rw [h1]) h2.2
        · exact h e h1
      · simp only [if_neg hlen] at he
        rcases mem_insertA_weak he with he | he
        · subst he
          simp only [ne_eq]
          intro hnil
          exact hlen (by rw [hnil]; rfl)
        · exact h e he

theorem handleMessage_preserves_mg (st : State) (c : ClientPtr) (msg : Message)
    (h : RoomsNonempty st) : RoomsNonempty (handleMessage st c msg).1 := by
  unfold handleMessage
  split_ifs with h1 h2 h3 h4 h5
  · exact handleJoin_preserves_mg st c msg h
  · rw [handleSignaling_fst_mg]
    exact h
  · rw [handleSignaling_fst_mg]
    exact h
  · rw [handleSignaling_fst_mg]
    exact h
  · exact removeClientFromRoom_preserves_mg st c h
  · exact h

theorem disconnectCleanup_preserves_mg (st : State) (c : ClientPtr)
    (h : RoomsNonempty st) : RoomsNonempty (disconnectCleanup st c).1 := by
  unfold disconnectCleanup
  split_ifs with h1
  · exact h
  · exact removeClientFromRoom_preserves_mg st c h

end MG

/-- C4: the empty-room reaping invariant.  Every router operation (join,
signaling forward, leave via the dispatcher, disconnect cleanup)
preserves "every registered room has at least one member"; the removal
that empties a room deletes it from the registry within the same
operation; and a get-or-create for an unregistered id constructs a
brand-new empty room.  Both implementations. -/
theorem C4_registry_rooms_nonempty :
    (∀ (st : P0.State) (c : ClientPtr) (msg : Message),
      P0.RoomsNonempty st → P0.RoomsNonempty (P0.handleMessage st c msg).1) ∧
    (∀ (st : P0.State) (c : ClientPtr),
      P0.RoomsNonempty st → P0.RoomsNonempty (P0.disconnectCleanup st c).1) ∧
    (∀ (st : P0.State) (c : ClientPtr) (room : P0.Room),
      (st.clientOf c).roomId ≠ "" →
      lookupA (st.clientOf c).roomId st.rooms = some room →
      room.clients.filter (fun x => x ≠ c) = [] →
      lookupA (st.clientOf c).roomId (P0.removeClientFromRoom st c).1.rooms = none) ∧
    (∀ (rooms : List (String × P0.Room)) (rid : String),
      lookupA rid rooms = none →
      P0.getOrCreate rooms rid = (⟨rid, []⟩, insertA rid ⟨rid, []⟩ rooms)) ∧
    (∀ (st : MG.State) (c : ClientPtr) (msg : Message),
      MG.RoomsNonempty st → MG.RoomsNonempty (MG.handleMessage st c msg).1) ∧
    (∀ (st : MG.State) (c : ClientPtr),
      MG.RoomsNonempty st → MG.RoomsNonempty (MG.disconnectCleanup st c).1) ∧
    (∀ (st : MG.State) (c : ClientPtr) (room : MG.Room),
      (st.clientOf c).roomId ≠ "" →
      lookupA (st.clientOf c).roomId st.rooms = some room →
      eraseA (st.clientOf c).id room.clients = [] →
      lookupA (st.clientOf c).roomId (MG.removeClientFromRoom st c).1.rooms = none) ∧
    (∀ (rooms : List (String × MG.Room)) (rid : String),
      lookupA rid rooms = none →
      MG.getOrCreateRoom rooms rid = (⟨rid, []⟩, insertA rid ⟨rid, []⟩ rooms)) := by
  refine ⟨P0.handleMessage_preserves, P0.disconnectCleanup_preserves, ?_, ?_,
    MG.handleMessage_preserves_mg, MG.disconnectCleanup_preserves_mg, ?_, ?_⟩
  · intro st c room hr hl hfilter
    rw [P0.removeClientFromRoom_eq st c room hr hl, hfilter]
    simp [lookupA_eraseA_self]
  · intro rooms rid hl
    unfold P0.getOrCreate
    rw [hl]
  · intro st c room hr hl herase
    rw [MG.removeClientFromRoom_eq_mg st c room hr hl, herase]
    simp [lookupA_eraseA_self]
  · intro rooms rid hl
    unfold MG.getOrCreateRoom
    rw [hl]

/-- Witness for C4: a join into the demo state preserves the invariant;
removing the sole member of a one-member room "R" deletes "R" from the
registry; a fresh get-or-create on the empty registry returns a
brand-new empty room. -/
theorem C4_registry_rooms_nonempty_witness :
    (P0.RoomsNonempty demoP0 ∧
      P0.RoomsNonempty (P0.handleMessage demoP0 0 ⟨"join", "a", "", "S", "ua", ""⟩).1) ∧
    ((reapP0.clientOf 1).roomId ≠ "" ∧
      lookupA (reapP0.clientOf 1).roomId reapP0.rooms = some ⟨"R", [1]⟩ ∧
      (⟨"R", [1]⟩ : P0.Room).clients.filter (fun x => x ≠ 1) = [] ∧
      lookupA (reapP0.clientOf 1).roomId (P0.removeClientFromRoom reapP0 1).1.rooms = none) ∧
    P0.getOrCreate [] "R" = (⟨"R", []⟩, insertA "R" ⟨"R", []⟩ []) ∧
    (MG.RoomsNonempty demoMG ∧
      MG.RoomsNonempty (MG.handleMessage demoMG 0 ⟨"join", "a", "", "S", "ua", ""⟩).1) ∧
    ((reapMG.clientOf 1).roomId ≠ "" ∧
      lookupA (reapMG.clientOf 1).roomId reapMG.rooms = some ⟨"R", [("b", 1)]⟩ ∧
      eraseA (reapMG.clientOf 1).id (⟨"R", [("b", 1)]⟩ : MG.Room).clients = [] ∧
      lookupA (reapMG.clientOf 1).roomId (MG.removeClientFromRoom reapMG 1).1.rooms = none) ∧
    MG.getOrCreateRoom [] "R" = (⟨"R", []⟩, insertA "R" ⟨"R", []⟩ []) := by
  refine ⟨⟨by unfold P0.RoomsNonempty; decide, ?_⟩,
    ⟨by decide, by decide, by decide, ?_⟩, ?_,
    ⟨by unfold MG.RoomsNonempty; decide, ?_⟩,
    ⟨by decide, by decide, by decide, ?_⟩, ?_⟩
  · exact C4_registry_rooms_nonempty.1 demoP0 0 ⟨"join", "a", "", "S", "ua", ""⟩
      (by unfold P0.RoomsNonempty; decide)
  · exact C4_registry_rooms_nonempty.2.2.1 reapP0 1 ⟨"R", [1]⟩ (by decide) (by decide) (by decide)
  · exact C4_registry_rooms_nonempty.2.2.2.1 [] "R" rfl
  · exact C4_registry_rooms_nonempty.2.2.2.2.1 demoMG 0 ⟨"join", "a", "", "S", "ua", ""⟩
      (by unfold MG.RoomsNonempty; decide)
  · exact C4_registry_rooms_nonempty.2.2.2.2.2.2.1 reapMG 1 ⟨"R", [("b", 1)]⟩
      (by decide) (by decide) (by decide)
  · exact C4_registry_rooms_nonempty.2.2.2.2.2.2.2 [] "R" rfl

/-! ### Claim C6 -/

theorem countP_fst_map_eq_count (l : List ClientPtr) (m : Message) (B : ClientPtr) :
    (l.map (fun o => ((o, m) : Delivery))).countP (fun d => d.1 == B) = l.count B := by
  induction l with
  | nil => rfl
  | cons a rest ih => simp [List.countP_cons, List.count_cons, ih]

theorem countP_snd_map_eq_count (l : List (String × ClientPtr)) (m : Message)
    (v : ClientPtr) :
    (l.map (fun e => ((e.2, m) : Delivery))).countP (fun d => d.1 == v) =
      (l.map Prod.snd).count v := by
  induction l with
  | nil => rfl
  | cons a rest ih => simp [List.countP_cons, List.count_cons, ih]

/-- C6: explicit `leave` and implicit disconnect run the very same
cleanup (`removeClientFromRoom`); for a joined member of a registered
room the cleanup removes the session from that room, delivers exactly
one `user-left` (carrying the departing session's stored id) to each
remaining member, delivers nothing to the departing session, and a
session whose `roomId` is empty cleans up nothing.  Both
implementations (main.go removes by id key, so the member entry must be
the session's own and pointers must be unaliased). -/
theorem C6_leave_disconnect_identical_cleanup :
    (∀ (st : P0.State) (c : ClientPtr) (msg : Message),
      P0.handleLeave st c msg = P0.removeClientFromRoom st c) ∧
    (∀ (st : P0.State) (c : ClientPtr),
      P0.disconnectCleanup st c = P0.removeClientFromRoom st c) ∧
    (∀ (st : P0.State) (c : ClientPtr),
      (st.clientOf c).roomId = "" → P0.removeClientFromRoom st c = (st, [])) ∧
    (∀ (st : P0.State) (c : ClientPtr) (room : P0.Room),
      (st.clientOf c).roomId ≠ "" →
      lookupA (st.clientOf c).roomId st.rooms = some room →
      room.clients.Nodup →
      (∀ r', lookupA (st.clientOf c).roomId (P0.removeClientFromRoom st c).1.rooms = some r' →
        c ∉ r'.clients) ∧
      (∀ B ∈ room.clients, B ≠ c →
        (P0.removeClientFromRoom st c).2.countP (fun d => d.1 == B) = 1 ∧
        (B, P0.userLeftMsg st c) ∈ (P0.removeClientFromRoom st c).2) ∧
      (P0.removeClientFromRoom st c).2.countP (fun d => d.1 == c) = 0) ∧
    (∀ (st : MG.State) (c : ClientPtr) (msg : Message),
      MG.handleLeave st c msg = MG.removeClientFromRoom st c) ∧
    (∀ (st : MG.State) (c : ClientPtr),
      MG.disconnectCleanup st c = MG.removeClientFromRoom st c) ∧
    (∀ (st : MG.State) (c : ClientPtr),
      (st.clientOf c).roomId = "" → MG.removeClientFromRoom st c = (st, [])) ∧
    (∀ (st : MG.State) (c : ClientPtr) (room : MG.Room),
      (st.clientOf c).roomId ≠ "" →
      lookupA (st.clientOf c).roomId st.rooms = some room →
      (room.clients.map Prod.snd).Nodup →
      (∀ e ∈ room.clients, e.2 = c → e.1 = (st.clientOf c).id) →
      (∀ r', lookupA (st.clientOf c).roomId (MG.removeClientFromRoom st c).1.rooms = some r' →
        c ∉ r'.clients.map Prod.snd) ∧
      (∀ e ∈ room.clients, e.1 ≠ (st.clientOf c).id →
        (MG.removeClientFromRoom st c).2.countP (fun d => d.1 == e.2) = 1 ∧
        (e.2, MG.userLeftMsg st c) ∈ (MG.removeClientFromRoom st c).2) ∧
      (MG.removeClientFromRoom st c).2.countP (fun d => d.1 == c) = 0) := by
  refine ⟨fun st c msg => rfl, ?_, ?_, ?_, fun st c msg => rfl, ?_, ?_, ?_⟩
  · intro st c
    unfold P0.disconnectCleanup
    by_cases h : (st.clientOf c).roomId = ""
    · simp [h, P0.removeClientFromRoom]
    · simp [h]
  · intro st c h
    simp [P0.removeClientFromRoom, h]
  · intro st c room hr hl hnd
    rw [P0.removeClientFromRoom_eq st c room hr hl]
    refine ⟨?_, ?_, ?_⟩
    · intro r' hr' hcr'
      by_cases hlen : (room.clients.filter (fun x => x ≠ c)).length = 0
      · rw [if_pos hlen, lookupA_eraseA_self] at hr'
        cases hr'
      · rw [if_neg hlen, lookupA_insertA_self] at hr'
        cases hr'
        have := List.mem_filter.mp hcr'
        simp at this
    · intro B hB hBc
      constructor
      · rw [countP_fst_map_eq_count]
        exact List.count_eq_one_of_mem
          ((List.filter_sublist room.clients).nodup hnd)
          (List.mem_filter.mpr ⟨hB, by simp [hBc]⟩)
      · exact List.mem_map_of_mem _ (List.mem_filter.mpr ⟨hB, by simp [hBc]⟩)
    · rw [List.countP_eq_zero]
      intro d hd
      rcases List.mem_map.mp hd with ⟨o, ho, rfl⟩
      have := List.mem_filter.mp ho
      simp at this ⊢
      exact fun h => this.2 h
  · intro st c
    unfold MG.disconnectCleanup
    by_cases h : (st.clientOf c).roomId = ""
    · simp [h, MG.removeClientFromRoom]
    · simp [h]
  · intro st c h
    simp [MG.removeClientFromRoom, h]
  · intro st c room hr hl hnd honly
    have hdel := MG.removeClientFromRoom_deliveries st c room hr hl
    refine ⟨?_, ?_, ?_⟩
    · intro r' hr' hcr'
      rw [MG.removeClientFromRoom_eq_mg st c room hr hl] at hr'
      by_cases hlen : (eraseA (st.clientOf c).id room.clients).length = 0
      · rw [if_pos hlen, lookupA_eraseA_self] at hr'
        cases hr'
      · rw [if_neg hlen, lookupA_insertA_self] at hr'
        cases hr'
        rcases List.mem_map.mp hcr' with ⟨e, he, rfl⟩
        have h2 := mem_eraseA he
        exact h2.2 (honly e h2.1 rfl)
    · intro e he hei
      have hmem : e ∈ eraseA (st.clientOf c).id room.clients := mem_eraseA_of_mem he hei
      constructor
      · rw [hdel, countP_snd_map_eq_count]
        exact List.count_eq_one_of_mem
          (((eraseA_sublist _ room.clients).map Prod.snd).nodup hnd)
          (List.mem_map_of_mem Prod.snd hmem)
      · rw [hdel]
        exact List.mem_map_of_mem _ hmem
    · rw [hdel, List.countP_eq_zero]
      intro d hd
      rcases List.mem_map.mp hd with ⟨e, he, rfl⟩
      have h2 := mem_eraseA he
      simp only [beq_iff_eq]
      intro hec
      exact h2.2 (honly e h2.1 hec)

/-- Witness for C6: never-joined session 9 cleans up nothing; when
session 1 ("b") leaves room "R", members 0 and 2 each get exactly one
`user-left` from "b" and session 1 gets nothing — in both models. -/
theorem C6_leave_disconnect_identical_cleanup_witness :
    ((demoP0.clientOf 9).roomId = "" ∧ P0.removeClientFromRoom demoP0 9 = (demoP0, [])) ∧
    (lookupA (demoP0.clientOf 1).roomId demoP0.rooms = some ⟨"R", [0, 1, 2]⟩ ∧
      ([0, 1, 2] : List ClientPtr).Nodup ∧
      (P0.removeClientFromRoom demoP0 1).2.countP (fun d => d.1 == 0) = 1 ∧
      ((0 : ClientPtr), P0.userLeftMsg demoP0 1) ∈ (P0.removeClientFromRoom demoP0 1).2 ∧
      (P0.removeClientFromRoom demoP0 1).2.countP (fun d => d.1 == 1) = 0) ∧
    ((demoMG.clientOf 9).roomId = "" ∧ MG.removeClientFromRoom demoMG 9 = (demoMG, [])) ∧
    (lookupA (demoMG.clientOf 1).roomId demoMG.rooms =
        some ⟨"R", [("a", 0), ("b", 1), ("g", 2)]⟩ ∧
      (MG.removeClientFromRoom demoMG 1).2.countP (fun d => d.1 == 0) = 1 ∧
      ((0 : ClientPtr), MG.userLeftMsg demoMG 1) ∈ (MG.removeClientFromRoom demoMG 1).2 ∧
      (MG.removeClientFromRoom demoMG 1).2.countP (fun d => d.1 == 1) = 0) := by
  have hp := C6_leave_disconnect_identical_cleanup.2.2.2.1 demoP0 1 ⟨"R", [0, 1, 2]⟩
    (by decide) (by decide) (by decide)
  have hpB := hp.2.1 0 (by decide) (by decide)
  have hm := C6_leave_disconnect_identical_cleanup.2.2.2.2.2.2.2 demoMG 1
    ⟨"R", [("a", 0), ("b", 1), ("g", 2)]⟩ (by decide) (by decide) (by decide) (by decide)
  have hmB := hm.2.1 ("a", 0) (by decide) (by decide)
  exact ⟨⟨by decide, C6_leave_disconnect_identical_cleanup.2.2.1 demoP0 9 (by decide)⟩,
    ⟨by decide, by decide, hpB.1, hpB.2, hp.2.2⟩,
    ⟨by decide, C6_leave_disconnect_identical_cleanup.2.2.2.2.2.2.1 demoMG 9 (by decide)⟩,
    ⟨by decide, hmB.1, hmB.2, hm.2.2⟩⟩

namespace P0

theorem handleJoin_deliveries_pre (st : State) (c : ClientPtr) (msg : Message)
    (h : msg.roomId ≠ "") :
    (handleJoin st c msg).2 =
      ((roomClients st.rooms msg.roomId).filter (fun o => o ≠ c)).map
        (fun o => (o, userJoinedMsg msg)) ++ [(c, joinedMsg msg)] := by
  rw [handleJoin_deliveries st c msg h, filter_insertPtr]
  unfold roomClients getOrCreate
  cases hl : lookupA msg.roomId st.rooms <;> simp [hl]

end P0

namespace MG

theorem handleJoin_deliveries_pre_mg (st : State) (c : ClientPtr) (msg : Message) :
    (handleJoin st c msg).2 =
      (c, joinedMsg msg) ::
        ((roomClients st.rooms msg.roomId).filter (fun e => e.1 ≠ msg.from_)).map
          (fun e => (e.2, userJoinedMsg msg)) := by
  cases hl : lookupA msg.roomId st.rooms with
  | some room =>
    have hfi := filter_insertA msg.from_ c room.clients
    simp only [ne_eq, decide_not] at hfi
    unfold handleJoin notifyOthersInRoom setClient getOrCreateRoom roomClients
    simp [hl, lookupA_insertA_self, hfi]
  | none =>
    unfold handleJoin notifyOthersInRoom setClient getOrCreateRoom roomClients
    simp [hl, lookupA_insertA_self, insertA]

end MG

/-- C2: a successful `join` into room R delivers exactly one
`user-joined` (carrying the joiner's id and username) to every other
current member of R, none to the joiner, and exactly one `joined`
echoing R's roomId to the joiner — in both implementations (main.go
excludes by id, so a pre-existing member under the joiner's own id is
not an "other" member, and the joiner must not be aliased inside the
room). -/
theorem C2_join_notifications :
    (∀ (st : P0.State) (c : ClientPtr) (msg : Message) (B : ClientPtr),
      msg.type_ = "join" → msg.roomId ≠ "" →
      (P0.roomClients st.rooms msg.roomId).Nodup →
      B ∈ P0.roomClients st.rooms msg.roomId → B ≠ c →
      (P0.handleMessage st c msg).2.countP (fun d => d.1 == B) = 1 ∧
      (B, P0.userJoinedMsg msg) ∈ (P0.handleMessage st c msg).2) ∧
    (∀ (st : P0.State) (c : ClientPtr) (msg : Message),
      msg.type_ = "join" → msg.roomId ≠ "" →
      (P0.handleMessage st c msg).2.countP (fun d => d.1 == c) = 1 ∧
      (c, P0.joinedMsg msg) ∈ (P0.handleMessage st c msg).2 ∧
      (∀ d ∈ (P0.handleMessage st c msg).2, d.1 = c → d.2 = P0.joinedMsg msg)) ∧
    (∀ (st : MG.State) (c : ClientPtr) (msg : Message) (e : String × ClientPtr),
      msg.type_ = "join" →
      ((MG.roomClients st.rooms msg.roomId).map Prod.snd).Nodup →
      c ∉ (MG.roomClients st.rooms msg.roomId).map Prod.snd →
      e ∈ MG.roomClients st.rooms msg.roomId → e.1 ≠ msg.from_ →
      (MG.handleMessage st c msg).2.countP (fun d => d.1 == e.2) = 1 ∧
      (e.2, MG.userJoinedMsg msg) ∈ (MG.handleMessage st c msg).2) ∧
    (∀ (st : MG.State) (c : ClientPtr) (msg : Message),
      msg.type_ = "join" →
      c ∉ (MG.roomClients st.rooms msg.roomId).map Prod.snd →
      (MG.handleMessage st c msg).2.countP (fun d => d.1 == c) = 1 ∧
      (c, MG.joinedMsg msg) ∈ (MG.handleMessage st c msg).2 ∧
      (∀ d ∈ (MG.handleMessage st c msg).2, d.1 = c → d.2 = MG.joinedMsg msg)) := by
  refine ⟨?_, ?_, ?_, ?_⟩
  · intro st c msg B htype hrid hnd hB hBc
    rw [P0.handleMessage_join st c msg htype,
      P0.handleJoin_deliveries_pre st c msg hrid]
    have hBf : B ∈ (P0.roomClients st.rooms msg.roomId).filter (fun o => o ≠ c) :=
      List.mem_filter.mpr ⟨hB, by simp [hBc]⟩
    constructor
    · rw [List.countP_append, countP_fst_map_eq_count]
      have h1 : ((P0.roomClients st.rooms msg.roomId).filter (fun o => o ≠ c)).count B = 1 :=
        List.count_eq_one_of_mem
          ((List.filter_sublist (P0.roomClients st.rooms msg.roomId)).nodup hnd) hBf
      have h2 : ([(c, P0.joinedMsg msg)] : List Delivery).countP (fun d => d.1 == B) = 0 := by
        simp [List.countP_cons, Ne.symm hBc]
      rw [h1, h2]
    · exact List.mem_append_left _ (List.mem_map_of_mem _ hBf)
  · intro st c msg htype hrid
    rw [P0.handleMessage_join st c msg htype,
      P0.handleJoin_deliveries_pre st c msg hrid]
    refine ⟨?_, ?_, ?_⟩
    · rw [List.countP_append]
      have h1 : (((P0.roomClients st.rooms msg.roomId).filter (fun o => o ≠ c)).map
          (fun o => ((o, P0.userJoinedMsg msg) : Delivery))).countP (fun d => d.1 == c) = 0 := by
        rw [List.countP_eq_zero]
        intro d hd
        rcases List.mem_map.mp hd with ⟨o, ho, rfl⟩
        have := List.mem_filter.mp ho
        simp at this ⊢
        exact fun h => this.2 h
      rw [h1]
      simp
    · exact List.mem_append_right _ (List.mem_singleton.mpr rfl)
    · intro d hd hdc
      rcases List.mem_append.mp hd with hd | hd
      · rcases List.mem_map.mp hd with ⟨o, ho, rfl⟩
        have := List.mem_filter.mp ho
        simp at this
        exact absurd hdc this.2
      · rw [List.mem_singleton.mp hd]
  · intro st c msg e htype hnd hcnot he hef
    rw [MG.handleMessage_join_mg st c msg htype, MG.handleJoin_deliveries_pre_mg st c msg]
    have hef2 : e ∈ (MG.roomClients st.rooms msg.roomId).filter (fun x => x.1 ≠ msg.from_) :=
      List.mem_filter.mpr ⟨he, by simp [hef]⟩
    have hec : ¬ (c = e.2) := by
      intro hc
      exact hcnot (hc ▸ List.mem_map_of_mem Prod.snd he)
    constructor
    · rw [List.countP_cons_of_neg _ _ (by simpa using hec), countP_snd_map_eq_count]
      exact List.count_eq_one_of_mem
        (((List.filter_sublist (MG.roomClients st.rooms msg.roomId)).map Prod.snd).nodup hnd)
        (List.mem_map_of_mem Prod.snd hef2)
    · exact List.mem_cons_of_mem _ (List.mem_map_of_mem _ hef2)
  · intro st c msg htype hcnot
    rw [MG.handleMessage_join_mg st c msg htype, MG.handleJoin_deliveries_pre_mg st c msg]
    refine ⟨?_, List.mem_cons_self _ _, ?_⟩
    · rw [List.countP_cons_of_pos _ _ (by simp)]
      have h1 : (((MG.roomClients st.rooms msg.roomId).filter (fun x => x.1 ≠ msg.from_)).map
          (fun e => ((e.2, MG.userJoinedMsg msg) : Delivery))).countP (fun d => d.1 == c) = 0 := by
        rw [List.countP_eq_zero]
        intro d hd
        rcases List.mem_map.mp hd with ⟨e, he, rfl⟩
        have hmem := (List.mem_filter.mp he).1
        simp only [beq_iff_eq]
        intro hc
        exact hcnot (hc ▸ List.mem_map_of_mem Prod.snd hmem)
      rw [h1]
    · intro d hd hdc
      rcases List.mem_cons.mp hd with hd | hd
      · rw [hd]
      · rcases List.mem_map.mp hd with ⟨e, he, rfl⟩
        have hmem := (List.mem_filter.mp he).1
        exact absurd (hdc ▸ List.mem_map_of_mem Prod.snd hmem) hcnot

/-- Witness for C2: session 3 ("d") joins the demo room "R"; existing
member 0 receives exactly one `user-joined` from "d", and the joiner
receives exactly one envelope, the `joined` echo of "R". -/
theorem C2_join_notifications_witness :
    ((P0.roomClients demoP0.rooms "R").Nodup ∧
      (0 : ClientPtr) ∈ P0.roomClients demoP0.rooms "R" ∧
      (P0.handleMessage demoP0 3 ⟨"join", "d", "", "R", "ud", ""⟩).2.countP
        (fun d => d.1 == 0) = 1 ∧
      ((0 : ClientPtr), P0.userJoinedMsg ⟨"join", "d", "", "R", "ud", ""⟩) ∈
        (P0.handleMessage demoP0 3 ⟨"join", "d", "", "R", "ud", ""⟩).2 ∧
      (P0.handleMessage demoP0 3 ⟨"join", "d", "", "R", "ud", ""⟩).2.countP
        (fun d => d.1 == 3) = 1 ∧
      ((3 : ClientPtr), P0.joinedMsg ⟨"join", "d", "", "R", "ud", ""⟩) ∈
        (P0.handleMessage demoP0 3 ⟨"join", "d", "", "R", "ud", ""⟩).2) ∧
    (((MG.roomClients demoMG.rooms "R").map Prod.snd).Nodup ∧
      ("a", (0 : ClientPtr)) ∈ MG.roomClients demoMG.rooms "R" ∧
      (MG.handleMessage demoMG 3 ⟨"join", "d", "", "R", "ud", ""⟩).2.countP
        (fun d => d.1 == 0) = 1 ∧
      ((0 : ClientPtr), MG.userJoinedMsg ⟨"join", "d", "", "R", "ud", ""⟩) ∈
        (MG.handleMessage demoMG 3 ⟨"join", "d", "", "R", "ud", ""⟩).2 ∧
      (MG.handleMessage demoMG 3 ⟨"join", "d", "", "R", "ud", ""⟩).2.countP
        (fun d => d.1 == 3) = 1 ∧
      ((3 : ClientPtr), MG.joinedMsg ⟨"join", "d", "", "R", "ud", ""⟩) ∈
        (MG.handleMessage demoMG 3 ⟨"join", "d", "", "R", "ud", ""⟩).2) := by
  have hp := C2_join_notifications.1 demoP0 3 ⟨"join", "d", "", "R", "ud", ""⟩ 0 rfl
    (by decide) (by unfold P0.roomClients; decide) (by unfold P0.roomClients; decide)
    (by decide)
  have hpj := C2_join_notifications.2.1 demoP0 3 ⟨"join", "d", "", "R", "ud", ""⟩ rfl
    (by decide)
  have hm := C2_join_notifications.2.2.1 demoMG 3 ⟨"join", "d", "", "R", "ud", ""⟩
    ("a", 0) rfl (by unfold MG.roomClients; decide) (by unfold MG.roomClients; decide)
    (by unfold MG.roomClients; decide) (by decide)
  have hmj := C2_join_notifications.2.2.2 demoMG 3 ⟨"join", "d", "", "R", "ud", ""⟩ rfl
    (by unfold MG.roomClients; decide)
  exact ⟨⟨by unfold P0.roomClients; decide, by unfold P0.roomClients; decide,
      hp.1, hp.2, hpj.1, hpj.2.1⟩,
    ⟨by unfold MG.roomClients; decide, by unfold MG.roomClients; decide,
      hm.1, hm.2, hmj.1, hmj.2.1⟩⟩

/-- C9: in the id-keyed representation of `src/main.go`, a `join` by a
new session s2 under an id already held by member s1 of the same room
replaces s1's entry: afterwards the key maps to s2 and s1 is no longer
a member, no `user-left` is emitted for it, s1's own `roomId` still
names the room, and s1's later leave/disconnect cleanup deletes the
*replacing* session's membership entry. -/
theorem C9_maingo_join_same_id_replaces_member :
    ∀ (st : MG.State) (s1 s2 : ClientPtr) (msg : Message) (room : MG.Room),
      msg.type_ = "join" → msg.roomId ≠ "" →
      lookupA msg.roomId st.rooms = some room →
      lookupA msg.from_ room.clients = some s1 →
      s1 ≠ s2 →
      (st.clientOf s1).id = msg.from_ →
      (st.clientOf s1).roomId = msg.roomId →
      (room.clients.map Prod.fst).Nodup →
      (∀ e ∈ room.clients, e.2 = s1 → e.1 = msg.from_) →
      (∃ room1, lookupA msg.roomId (MG.handleMessage st s2 msg).1.rooms = some room1 ∧
        lookupA msg.from_ room1.clients = some s2 ∧
        s1 ∉ room1.clients.map Prod.snd) ∧
      (∀ d ∈ (MG.handleMessage st s2 msg).2, d.2.type_ ≠ "user-left") ∧
      ((MG.handleMessage st s2 msg).1.clientOf s1).roomId = msg.roomId ∧
      (∀ r2, lookupA msg.roomId
          (MG.removeClientFromRoom (MG.handleMessage st s2 msg).1 s1).1.rooms = some r2 →
        lookupA msg.from_ r2.clients = none) := by
  intro st s1 s2 msg room htype hrid hl hkey hs12 hid hroom1 hnd honly
  rw [MG.handleMessage_join_mg st s2 msg htype]
  have hgc : MG.getOrCreateRoom st.rooms msg.roomId = (room, st.rooms) := by
    unfold MG.getOrCreateRoom
    rw [hl]
  have hrooms : (MG.handleJoin st s2 msg).1.rooms =
      insertA msg.roomId ⟨room.id, insertA msg.from_ s2 room.clients⟩ st.rooms := by
    rw [MG.handleJoin_rooms_mg, hgc]
  have hcl : (MG.handleJoin st s2 msg).1.clientOf s1 = st.clientOf s1 := by
    rw [MG.handleJoin_clientOf_mg]
    simp [hs12]
  refine ⟨?_, ?_, ?_, ?_⟩
  · refine ⟨⟨room.id, insertA msg.from_ s2 room.clients⟩, ?_, ?_, ?_⟩
    · rw [hrooms, lookupA_insertA_self]
    · exact lookupA_insertA_self _ _ _
    · intro hmem
      rcases List.mem_map.mp hmem with ⟨e, he, hes⟩
      rcases mem_insertA_nodup hnd he with he1 | he1
      · rw [he1] at hes
        exact hs12 hes.symm
      · exact he1.2 (honly e he1.1 hes)
  · intro d hd
    rw [MG.handleJoin_deliveries_pre_mg st s2 msg] at hd
    rcases List.mem_cons.mp hd with hd | hd
    · rw [hd]
      simp [MG.joinedMsg]
    · rcases List.mem_map.mp hd with ⟨e, _, rfl⟩
      simp [MG.userJoinedMsg]
  · rw [hcl, hroom1]
  · intro r2 hr2
    have hr' : ((MG.handleJoin st s2 msg).1.clientOf s1).roomId ≠ "" := by
      rw [hcl, hroom1]
      exact hrid
    have hl' : lookupA ((MG.handleJoin st s2 msg).1.clientOf s1).roomId
        (MG.handleJoin st s2 msg).1.rooms =
          some ⟨room.id, insertA msg.from_ s2 room.clients⟩ := by
      rw [hcl, hroom1, hrooms, lookupA_insertA_self]
    rw [MG.removeClientFromRoom_eq_mg (MG.handleJoin st s2 msg).1 s1
      ⟨room.id, insertA msg.from_ s2 room.clients⟩ hr' hl'] at hr2
    simp only at hr2
    by_cases hlen :
        (eraseA ((MG.handleJoin st s2 msg).1.clientOf s1).id
          (insertA msg.from_ s2 room.clients)).length = 0
    · rw [if_pos hlen] at hr2
      rw [hcl, hroom1] at hr2
      rw [lookupA_eraseA_self] at hr2
      cases hr2
    · rw [if_neg hlen] at hr2
      rw [hcl, hroom1] at hr2
      rw [lookupA_insertA_self] at hr2
      cases hr2
      show lookupA msg.from_
        (eraseA (st.clientOf s1).id (insertA msg.from_ s2 room.clients)) = none
      rw [hid]
      exact lookupA_eraseA_self _ _

/-- Witness for C9: session 2 joins room "R" as "a", which room "R"
already maps to session 1; the entry now points to 2, session 1 is
gone without any `user-left`, still believes it is in "R", and its
cleanup then deletes session 2's membership entry. -/
theorem C9_maingo_join_same_id_replaces_member_witness :
    (∃ room1,
      lookupA "R" (MG.handleMessage dupMG 2 ⟨"join", "a", "", "R", "u2", ""⟩).1.rooms =
        some room1 ∧
      lookupA "a" room1.clients = some 2 ∧
      (1 : ClientPtr) ∉ room1.clients.map Prod.snd) ∧
    (∀ d ∈ (MG.handleMessage dupMG 2 ⟨"join", "a", "", "R", "u2", ""⟩).2,
      d.2.type_ ≠ "user-left") ∧
    ((MG.handleMessage dupMG 2 ⟨"join", "a", "", "R", "u2", ""⟩).1.clientOf 1).roomId = "R" ∧
    (∀ r2, lookupA "R"
        (MG.removeClientFromRoom
          (MG.handleMessage dupMG 2 ⟨"join", "a", "", "R", "u2", ""⟩).1 1).1.rooms =
          some r2 →
      lookupA "a" r2.clients = none) :=
  C9_maingo_join_same_id_replaces_member dupMG 1 2 ⟨"join", "a", "", "R", "u2", ""⟩
    ⟨"R", [("a", 1)]⟩ rfl (by decide) (by decide) (by decide) (by decide) (by decide)
    (by decide) (by decide) (by decide)
